import Mathlib

/-!
# RepoPilot backend: a shallow embedding of the store, runner and plan parser

Definitions are translated from the Python sources under `backend/app/`
(`store/json_store.py`, `core/runner.py`, `core/plan_parser.py`,
`api/tasks.py`, `models.py`).  File I/O is modelled by passing the parsed
file contents explicitly; wall-clock readings, freshly minted UUIDs and the
outcomes of external subprocess/git invocations are passed as parameters.
-/

namespace RepoPilot

/-- The `{` character (written via its code point). -/
def lbrace : Char := Char.ofNat 123

/-- The `}` character (written via its code point). -/
def rbrace : Char := Char.ofNat 125

/-- JSON values as produced by `json.loads`.  Numbers are modelled as
integers (floats are outside the model); objects keep their fields in file
order, with lookups taking the last duplicate, as a Python dict built by the
parser would. -/
inductive Json where
  | null : Json
  | bool (b : Bool) : Json
  | num (n : Int) : Json
  | str (s : String) : Json
  | arr (elems : List Json) : Json
  | obj (fields : List (String × Json)) : Json
deriving Repr, Inhabited, BEq

/-- JSON insignificant whitespace. -/
def isJsonWs (c : Char) : Bool :=
  c = ' ' || c = '\t' || c = '\n' || c = '\r'

/-- Skip leading JSON whitespace. -/
def skipWs : List Char → List Char
  | [] => []
  | c :: rest => if isJsonWs c then skipWs rest else c :: rest

/-- Body of a JSON string literal after the opening quote: handles the
one-character escapes; `\uXXXX` escapes and raw control characters are
outside the model (the parser rejects them, shrinking the domain of `loads`
but never changing its answer where it is defined). -/
def parseStringBody (acc : List Char) : List Char → Option (String × List Char)
  | [] => none
  | c :: rest =>
    if c = '"' then some (⟨acc.reverse⟩, rest)
    else if c = '\\' then
      match rest with
      | [] => none
      | e :: rest₂ =>
        if e = '"' then parseStringBody ('"' :: acc) rest₂
        else if e = '\\' then parseStringBody ('\\' :: acc) rest₂
        else if e = '/' then parseStringBody ('/' :: acc) rest₂
        else if e = 'b' then parseStringBody ('\x08' :: acc) rest₂
        else if e = 'f' then parseStringBody ('\x0c' :: acc) rest₂
        else if e = 'n' then parseStringBody ('\n' :: acc) rest₂
        else if e = 'r' then parseStringBody ('\x0d' :: acc) rest₂
        else if e = 't' then parseStringBody ('\t' :: acc) rest₂
        else none
    else if c.toNat < 32 then none
    else parseStringBody (c :: acc) rest

/-- Accumulate decimal digits. -/
def digitsToNat (acc : Nat) : List Char → Nat × List Char
  | [] => (acc, [])
  | c :: rest =>
    if c.isDigit then digitsToNat (acc * 10 + (c.toNat - 48)) rest
    else (acc, c :: rest)

/-- A JSON natural number literal: `0`, or a nonzero digit followed by
digits (leading zeros rejected, as in `json.loads`). -/
def parseJsonNat : List Char → Option (Nat × List Char)
  | [] => none
  | c :: rest =>
    if c = '0' then
      if rest.head?.any Char.isDigit then none else some (0, rest)
    else if c.isDigit then some (digitsToNat (c.toNat - 48) rest)
    else none

/-- A JSON integer literal with optional minus sign. -/
def parseJsonInt (l : List Char) : Option (Json × List Char) :=
  match l with
  | '-' :: r => (parseJsonNat r).map fun p => (Json.num (-(p.1 : Int)), p.2)
  | _ => (parseJsonNat l).map fun p => (Json.num (p.1 : Int), p.2)

mutual

/-- Recursive-descent JSON value parser (the head of the input is already at
the first character of the value).  `fuel` only forces termination; `loads`
supplies more than enough. -/
def parseValue : Nat → List Char → Option (Json × List Char)
  | 0, _ => none
  | Nat.succ fuel, l =>
    match l with
    | [] => none
    | c :: rest =>
      if c = lbrace then parseMembers fuel (skipWs rest) []
      else if c = '[' then parseElems fuel (skipWs rest) []
      else if c = '"' then (parseStringBody [] rest).map fun p => (Json.str p.1, p.2)
      else if c = 't' then
        if ['r', 'u', 'e'].isPrefixOf rest then some (Json.bool true, rest.drop 3) else none
      else if c = 'f' then
        if ['a', 'l', 's', 'e'].isPrefixOf rest then some (Json.bool false, rest.drop 4) else none
      else if c = 'n' then
        if ['u', 'l', 'l'].isPrefixOf rest then some (Json.null, rest.drop 3) else none
      else parseJsonInt (c :: rest)

/-- Elements of a JSON array after `[` (whitespace already skipped). -/
def parseElems : Nat → List Char → List Json → Option (Json × List Char)
  | 0, _, _ => none
  | Nat.succ fuel, l, acc =>
    match l with
    | [] => none
    | c :: rest =>
      if c = ']' then
        if acc.isEmpty then some (Json.arr [], rest) else none
      else
        match parseValue fuel (c :: rest) with
        | none => none
        | some (v, rest₁) =>
          match skipWs rest₁ with
          | [] => none
          | d :: rest₂ =>
            if d = ',' then parseElems fuel (skipWs rest₂) (acc ++ [v])
            else if d = ']' then some (Json.arr (acc ++ [v]), rest₂)
            else none

/-- Members of a JSON object after `{` (whitespace already skipped). -/
def parseMembers : Nat → List Char → List (String × Json) → Option (Json × List Char)
  | 0, _, _ => none
  | Nat.succ fuel, l, acc =>
    match l with
    | [] => none
    | c :: rest =>
      if c = rbrace then
        if acc.isEmpty then some (Json.obj [], rest) else none
      else if c = '"' then
        match parseStringBody [] rest with
        | none => none
        | some (k, rest₁) =>
          match skipWs rest₁ with
          | [] => none
          | d :: rest₂ =>
            if d = ':' then
              match parseValue fuel (skipWs rest₂) with
              | none => none
              | some (v, rest₃) =>
                match skipWs rest₃ with
                | [] => none
                | e :: rest₄ =>
                  if e = ',' then parseMembers fuel (skipWs rest₄) (acc ++ [(k, v)])
                  else if e = rbrace then some (Json.obj (acc ++ [(k, v)]), rest₄)
                  else none
            else none
      else none

end

/-- `json.loads` on a character list: parse one value surrounded by optional
whitespace; trailing data is an error (`None`). -/
def loads (l : List Char) : Option Json :=
  match parseValue (l.length + 1) (skipWs l) with
  | none => none
  | some (v, rest) => if skipWs rest = [] then some v else none

/-- The `'` character. -/
def squote : Char := Char.ofNat 39

mutual

/-- Python `repr` of a loaded JSON value (scalars exact; container
rendering follows Python's list/dict repr, with string escaping inside
repr simplified to plain single quotes). -/
def pyRepr : Json → String
  | Json.null => "None"
  | Json.bool true => "True"
  | Json.bool false => "False"
  | Json.num n => toString n
  | Json.str s => String.singleton squote ++ s ++ String.singleton squote
  | Json.arr es => "[" ++ pyReprElems es ++ "]"
  | Json.obj fs => String.singleton lbrace ++ pyReprFields fs ++ String.singleton rbrace

/-- Comma-joined reprs of list elements. -/
def pyReprElems : List Json → String
  | [] => ""
  | [e] => pyRepr e
  | e :: e₂ :: rest => pyRepr e ++ ", " ++ pyReprElems (e₂ :: rest)

/-- Comma-joined reprs of dict items. -/
def pyReprFields : List (String × Json) → String
  | [] => ""
  | [(k, v)] => String.singleton squote ++ k ++ String.singleton squote ++ ": " ++ pyRepr v
  | (k, v) :: f₂ :: rest =>
      String.singleton squote ++ k ++ String.singleton squote ++ ": " ++ pyRepr v
        ++ ", " ++ pyReprFields (f₂ :: rest)

end

/-- Python `str()` of a loaded JSON value: a string is itself, anything else
is its repr. -/
def pyStr : Json → String
  | Json.str s => s
  | v => pyRepr v

/-- Python `str.strip()` whitespace (ASCII approximation). -/
def isPyWs (c : Char) : Bool :=
  c = ' ' || c = '\t' || c = '\n' || c = '\x0d' || c = '\x0b' || c = '\x0c'

/-- Python `str.strip()`. -/
def pyStrip (s : String) : String :=
  ⟨((s.data.dropWhile isPyWs).reverse.dropWhile isPyWs).reverse⟩

/-- Inner loop of `_extract_json_candidate` (plan_parser.py:13-28) from one
start position: scan forward keeping a brace depth; at each `}` that brings
the depth to zero, try `json.loads` on the candidate seen so far — a parse
failure continues the scan (with the depth already decremented), a parse to
a non-object breaks to the next start, a parse to an object succeeds.
`acc` holds the consumed characters in reverse. -/
def scanEnds : List Char → Int → List Char → Option (List (String × Json))
  | [], _, _ => none
  | c :: rest, depth, acc =>
    if c = lbrace then scanEnds rest (depth + 1) (c :: acc)
    else if c = rbrace then
      if depth - 1 = 0 then
        match loads ((c :: acc).reverse) with
        | some (Json.obj o) => some o
        | some _ => none
        | none => scanEnds rest (depth - 1) (c :: acc)
      else scanEnds rest (depth - 1) (c :: acc)
    else scanEnds rest depth (c :: acc)

/-- `_extract_json_candidate` (plan_parser.py:10-29): for each `{` position
in order, run the depth scan; the first start position whose scan yields a
JSON object wins. -/
def extractJsonCandidate : List Char → Option (List (String × Json))
  | [] => none
  | c :: rest =>
    if c = lbrace then
      match scanEnds (c :: rest) 0 [] with
      | some o => some o
      | none => extractJsonCandidate rest
    else extractJsonCandidate rest

/-- models.py `PlanQuestionOption`. -/
structure PlanQuestionOption where
  key : String
  label : String
  description : String
deriving Repr, DecidableEq

/-- models.py `PlanQuestion`. -/
structure PlanQuestion where
  id : String
  title : String
  question : String
  options : List PlanQuestionOption
  recommended_option_key : Option String
deriving Repr, DecidableEq

/-- models.py `PlanResult`. -/
structure PlanResult where
  summary : String
  questions : List PlanQuestion
  recommended_prompt : String
  raw_text : String
  valid_json : Bool
  steps : List String
  risks : List String
  validation : String
  rollback : String
  affected_files : List String
  new_dependencies : List String
  estimated_time : String
deriving Repr, DecidableEq

/-- Python dict lookup on a loaded JSON object (later duplicate keys
override earlier ones). -/
def objGet (o : List (String × Json)) (k : String) : Option Json :=
  (o.reverse.find? (fun kv => kv.1 == k)).map (·.2)

/-- `str(candidate.get(k, "")).strip()` as used throughout parse_plan. -/
def strField (o : List (String × Json)) (k : String) : String :=
  pyStrip (pyStr ((objGet o k).getD (Json.str "")))

/-- A parse_plan list field: coerce each element with `str(..).strip()` and
drop empties; a non-list value yields `[]`. -/
def strListField (o : List (String × Json)) (k : String) : List String :=
  match (objGet o k).getD (Json.arr []) with
  | Json.arr es => (es.map fun e => pyStrip (pyStr e)).filter (fun s => s ≠ "")
  | _ => []

/-- Python `for x in v` over a loaded JSON value: lists iterate elements,
dicts their keys, strings their characters; anything else raises TypeError
(`none`). -/
def jsonIterElems : Json → Option (List Json)
  | Json.arr es => some es
  | Json.obj fs => some (fs.map fun kv => Json.str kv.1)
  | Json.str s => some (s.data.map fun c => Json.str (String.singleton c))
  | _ => none

/-- parse_plan's options loop (plan_parser.py:65-76): non-dict entries are
skipped; a blank key defaults to `o{len(options)+1}`, the label falls back
to the key, the description to "". -/
def buildOptions : List Json → List PlanQuestionOption → List PlanQuestionOption
  | [], acc => acc
  | o :: rest, acc =>
    match o with
    | Json.obj fs =>
      let rawKey := pyStrip (pyStr ((objGet fs "key").getD (Json.str "")))
      let key := if rawKey = "" then "o" ++ toString (acc.length + 1) else rawKey
      let label := pyStr ((objGet fs "label").getD (Json.str key))
      let descr := pyStr ((objGet fs "description").getD (Json.str ""))
      buildOptions rest (acc ++ [⟨key, label, descr⟩])
    | _ => buildOptions rest acc

/-- `recommended_option_key` through the pydantic `str | None` field: absent
or null stays `none`, a string passes through, any other value raises a
ValidationError (modelled as overall failure). -/
def recOptKey : Option Json → Option (Option String)
  | none => some none
  | some Json.null => some none
  | some (Json.str s) => some (some s)
  | some _ => none

/-- parse_plan's questions loop (plan_parser.py:61-87): `idx` is the raw
enumeration index (non-dict entries still advance it); `none` models an
exception escaping parse_plan. -/
def buildQuestions : List Json → Nat → Option (List PlanQuestion)
  | [], _ => some []
  | q :: rest, idx =>
    match q with
    | Json.obj fs =>
      match jsonIterElems ((objGet fs "options").getD (Json.arr [])) with
      | none => none
      | some optElems =>
        let options := buildOptions optElems []
        let qidRaw := pyStrip (pyStr ((objGet fs "id").getD (Json.str "")))
        let qid := if qidRaw = "" then "q" ++ toString (idx + 1) else qidRaw
        let title := pyStr ((objGet fs "title").getD (Json.str qid))
        let questionText := pyStrip (pyStr ((objGet fs "question").getD (Json.str "")))
        match recOptKey (objGet fs "recommended_option_key") with
        | none => none
        | some rok =>
          (buildQuestions rest (idx + 1)).map (⟨qid, title, questionText, options, rok⟩ :: ·)
    | _ => buildQuestions rest (idx + 1)

/-- The questions block of parse_plan (plan_parser.py:58-61): only a JSON
list is iterated, anything else yields no questions. -/
def planQuestionsOf (o : List (String × Json)) : Option (List PlanQuestion) :=
  match (objGet o "questions").getD (Json.arr []) with
  | Json.arr qs => buildQuestions qs 0
  | _ => some []

/-- The PlanResult built by parse_plan from an extracted candidate object
(plan_parser.py:37-102); `none` models an exception escaping parse_plan. -/
def parsePlanFromObj (o : List (String × Json)) (raw : String) : Option PlanResult :=
  (planQuestionsOf o).map fun questions =>
    { summary := strField o "summary"
      questions := questions
      recommended_prompt := strField o "recommended_prompt"
      raw_text := raw
      valid_json := true
      steps := strListField o "steps"
      risks := strListField o "risks"
      validation := strField o "validation"
      rollback := strField o "rollback"
      affected_files := strListField o "affected_files"
      new_dependencies := strListField o "new_dependencies"
      estimated_time := strField o "estimated_time" }

/-- The invalid-JSON PlanResult (`valid_json=False`, remaining fields at
their pydantic defaults). -/
def invalidPlan (rawText : String) : PlanResult :=
  { summary := ""
    questions := []
    recommended_prompt := ""
    raw_text := rawText
    valid_json := false
    steps := []
    risks := []
    validation := ""
    rollback := ""
    affected_files := []
    new_dependencies := []
    estimated_time := "" }

/-- `parse_plan` (plan_parser.py:32-102).  Note `if not candidate:` treats
an *empty* extracted dict like an extraction failure (Python falsiness).
`none` models an exception escaping parse_plan. -/
def parsePlan (rawText : String) : Option PlanResult :=
  match extractJsonCandidate rawText.data with
  | none => some (invalidPlan rawText)
  | some [] => some (invalidPlan rawText)
  | some o => parsePlanFromObj o rawText

/-! ## Data model (models.py) -/

/-- models.py `TaskStatus`. -/
inductive TaskStatus where
  | TODO | PLAN_RUNNING | PLAN_REVIEW | READY | RUNNING | REVIEW | DONE | FAILED | CANCELLED
deriving Repr, DecidableEq

/-- models.py `TaskMode`. -/
inductive TaskMode where
  | PLAN | EXEC
deriving Repr, DecidableEq

/-- models.py `PermissionMode`. -/
inductive PermissionMode where
  | BYPASS | DEFAULT
deriving Repr, DecidableEq

/-- models.py `StrategyStepType`. -/
inductive StrategyStepType where
  | CODING | COMMIT | REBASE | TEST | PUSH | CREATE_PR
deriving Repr, DecidableEq

/-- models.py `StrategyStepStatus`. -/
inductive StrategyStepStatus where
  | pending | running | done | failed | skipped
deriving Repr, DecidableEq

/-- models.py `StrategyDecision`. -/
structure StrategyDecision where
  key : String
  question : String
  choice : String
  reason : String
deriving Repr, BEq

/-- models.py `StrategyStep` (`params: dict[str, Any]` modelled as a JSON
object). -/
structure StrategyStep where
  type : StrategyStepType
  label : String
  params : List (String × Json)
  skip : Bool
  reason : String
  status : StrategyStepStatus
deriving Repr, BEq

/-- models.py `ExecStrategy`. -/
structure ExecStrategy where
  template : String
  steps : List StrategyStep
  decisions : List StrategyDecision
  rationale : String
  raw_text : String
  valid : Bool
deriving Repr, BEq

/-- models.py `Task`, as stored in a row of tasks.json.  `worker_id` is the
extra row key written by `claim_next_task` (not declared on the pydantic
model, which ignores it on validation, but it lives in the stored row). -/
structure Task where
  id : String
  repo_id : String
  title : String
  prompt : String
  mode : TaskMode
  status : TaskStatus
  permission_mode : PermissionMode
  priority : Int
  created_at : String
  updated_at : String
  current_run_id : Option String
  claude_session_id : Option String
  plan_result : Option PlanResult
  plan_answers : List (String × String)
  exec_strategy : Option ExecStrategy
  pr_url : String
  error_code : String
  error_message : String
  cancel_requested : Bool
  worker_id : Option String
deriving Repr, BEq

/-- models.py `TaskRun` (`metrics: dict[str, Any]` modelled as a JSON
object). -/
structure TaskRun where
  id : String
  task_id : String
  worker_id : String
  attempt : Int
  started_at : String
  ended_at : Option String
  exit_code : Option Int
  worktree_path : String
  branch_name : String
  commit_sha : String
  python_env_used : String
  metrics : List (String × Json)
deriving Repr, BEq

/-- models.py `RepoConfig`. -/
structure RepoConfig where
  id : String
  name : String
  root_path : String
  main_branch : String
  test_command : String
  github_repo : String
  shared_symlink_paths : List String
  forbidden_symlink_paths : List String
  enabled : Bool
deriving Repr, BEq

/-! ## Store (store/json_store.py) -/

/-- `JsonStore.get_task` (json_store.py:302-308): first row whose id
matches. -/
def getTask (rows : List Task) (taskId : String) : Option Task :=
  rows.find? (fun r => r.id == taskId)

/-- `JsonStore.get_repo` (json_store.py:168-173): first repo whose id
matches. -/
def getRepo (repos : List RepoConfig) (repoId : String) : Option RepoConfig :=
  repos.find? (fun r => r.id == repoId)

/-- A patch dict for `update_task`.  A field holding `none` covers both an
absent key and an explicit Python `None` value — `update_task` drops both
identically (`{k: v for k, v in patch.items() if v is not None}`). -/
structure TaskPatch where
  title : Option String := none
  prompt : Option String := none
  mode : Option TaskMode := none
  status : Option TaskStatus := none
  priority : Option Int := none
  current_run_id : Option String := none
  claude_session_id : Option String := none
  plan_result : Option PlanResult := none
  plan_answers : Option (List (String × String)) := none
  exec_strategy : Option ExecStrategy := none
  pr_url : Option String := none
  error_code : Option String := none
  error_message : Option String := none
  cancel_requested : Option Bool := none
  worker_id : Option String := none
deriving Repr

/-- Apply one `update_task` patch to a row: non-None keys overwrite, then
`updated_at` is refreshed to the current time (json_store.py:316-317). -/
def applyTaskPatch (r : Task) (p : TaskPatch) (now : String) : Task :=
  { r with
    title := p.title.getD r.title
    prompt := p.prompt.getD r.prompt
    mode := p.mode.getD r.mode
    status := p.status.getD r.status
    priority := p.priority.getD r.priority
    current_run_id := (p.current_run_id.map some).getD r.current_run_id
    claude_session_id := (p.claude_session_id.map some).getD r.claude_session_id
    plan_result := (p.plan_result.map some).getD r.plan_result
    plan_answers := p.plan_answers.getD r.plan_answers
    exec_strategy := (p.exec_strategy.map some).getD r.exec_strategy
    pr_url := p.pr_url.getD r.pr_url
    error_code := p.error_code.getD r.error_code
    error_message := p.error_message.getD r.error_message
    cancel_requested := p.cancel_requested.getD r.cancel_requested
    worker_id := (p.worker_id.map some).getD r.worker_id
    updated_at := now }

/-- `JsonStore.update_task` (json_store.py:310-323): patch the first row
whose id matches and write the collection back; `none` when no row
matches. -/
def updateTask (rows : List Task) (taskId : String) (p : TaskPatch) (now : String) :
    Option Task × List Task :=
  match rows with
  | [] => (none, [])
  | r :: rest =>
    if r.id == taskId then
      let r' := applyTaskPatch r p now
      (some r', r' :: rest)
    else
      let res := updateTask rest taskId p now
      (res.1, r :: res.2)

/-- The claim-candidate test of `claim_next_task` (json_store.py:331-339):
not cancel-requested, and (PLAN ∧ TODO) or (EXEC ∧ status ∈ {TODO,
READY}). -/
def isClaimCandidate (r : Task) : Bool :=
  !r.cancel_requested &&
    ((r.mode == TaskMode.PLAN && r.status == TaskStatus.TODO) ||
     (r.mode == TaskMode.EXEC &&
       (r.status == TaskStatus.TODO || r.status == TaskStatus.READY)))

/-- The sort key comparison of `claim_next_task` (json_store.py:344):
Python's tuple order on `(-priority, created_at)` — priority descending,
then `created_at` ascending (ISO strings compared lexicographically). -/
def claimKeyLe (a b : Task) : Bool :=
  (-a.priority < -b.priority) || (-a.priority == -b.priority && decide (a.created_at ≤ b.created_at))

/-- The in-place mutation `claim_next_task` performs on the picked row
(json_store.py:346-351). -/
def claimUpdate (r : Task) (workerId now : String) : Task :=
  { r with
    status := if r.mode == TaskMode.PLAN then TaskStatus.PLAN_RUNNING else TaskStatus.RUNNING
    updated_at := now
    worker_id := some workerId }

/-- `JsonStore.claim_next_task` (json_store.py:325-355): filter candidates,
stable-sort by `(-priority, created_at)`, mutate the head row in place and
write back; `none` (leaving the rows untouched) when no candidate exists.
Candidates are tracked with their index in the rows list, which models
Python mutating the picked dict inside the `rows` list by object
identity. -/
def claimNextTask (rows : List Task) (workerId now : String) : Option Task × List Task :=
  let candidates := rows.enum.filter (fun p => isClaimCandidate p.2)
  let sorted := candidates.insertionSort (fun p q => claimKeyLe p.2 q.2 = true)
  match sorted.head? with
  | none => (none, rows)
  | some (i, r) =>
    let r' := claimUpdate r workerId now
    (some r', rows.set i r')

/-- `JsonStore.cancel_task` (json_store.py:357-363): TODO/READY/PLAN_REVIEW
transition straight to CANCELLED with the sticky flag; any other status only
gets `cancel_requested=true`. -/
def cancelTask (rows : List Task) (taskId now : String) : Option Task × List Task :=
  match getTask rows taskId with
  | none => (none, rows)
  | some task =>
    if task.status = TaskStatus.TODO ∨ task.status = TaskStatus.READY ∨
        task.status = TaskStatus.PLAN_REVIEW then
      updateTask rows taskId
        { status := some TaskStatus.CANCELLED, cancel_requested := some true } now
    else
      updateTask rows taskId { cancel_requested := some true } now

/-- `JsonStore.reset_task_for_retry` (json_store.py:365-381).  The Python
patch also carries `"current_run_id": None`, which `update_task` silently
drops (a `None` value is filtered out), so the field keeps its previous
value; the patch below renders that dropped key as the `current_run_id`
default `none`. -/
def resetTaskForRetry (rows : List Task) (taskId : String) (resetMode : Option TaskMode)
    (now : String) : Option Task × List Task :=
  match getTask rows taskId with
  | none => (none, rows)
  | some task =>
    let mode := match resetMode with
      | some m => m
      | none => task.mode
    updateTask rows taskId
      { status := some TaskStatus.TODO
        mode := some mode
        error_code := some ""
        error_message := some ""
        cancel_requested := some false
        current_run_id := none } now

/-- A wall-clock reading, as observed by `datetime.now()`. -/
structure DateTime where
  year : Nat
  month : Nat
  day : Nat
  hour : Nat
  minute : Nat
  second : Nat
deriving Repr, DecidableEq

/-- Zero-padded two-digit rendering (strftime field). -/
def pad2 (n : Nat) : String :=
  (if n < 10 then "0" else "") ++ toString n

/-- `datetime.now().strftime("%y%m%d_%H%M%S")` (json_store.py:98). -/
def fmtTimestamp (t : DateTime) : String :=
  pad2 (t.year % 100) ++ pad2 t.month ++ pad2 t.day ++ "_"
    ++ pad2 t.hour ++ pad2 t.minute ++ pad2 t.second

/-- `JsonStore._next_id` (json_store.py:95-110): format the current time as
`YYMMDD_HHMMSS` and return it if unused, otherwise sleep to the next second
boundary and retry ("Keep pure timestamp format by waiting for the next
second boundary").  `clock` is the stream of readings the loop observes;
`none` models the RuntimeError raised when the ~3s deadline elapses before
a free candidate appears. -/
def nextId (existingIds : List String) : List DateTime → Option String
  | [] => none
  | t :: rest =>
    let candidate := fmtTimestamp t
    if candidate ∈ existingIds then nextId existingIds rest else some candidate

/-! ## Per-task event log (append_event / read_events) -/

/-- One parsed line of `logs/<task_id>.ndjson`: the `seq` stamped by
`append_event` plus the timestamp and payload it spreads into the entry. -/
structure Event (π : Type) where
  seq : Int
  ts : String
  payload : π
deriving Repr, DecidableEq

/-- The `next_seq` scan of `append_event` (json_store.py:578-589): start at
1 and raise to `seq + 1` for every line already present. -/
def nextSeq {π : Type} (log : List (Event π)) : Int :=
  log.foldl (fun acc e => max acc (e.seq + 1)) 1

/-- `JsonStore.append_event` (json_store.py:575-598): append an entry
carrying the scanned `next_seq`, and return that seq. -/
def appendEvent {π : Type} (log : List (Event π)) (ts : String) (payload : π) :
    List (Event π) × Int :=
  (log ++ [⟨nextSeq log, ts, payload⟩], nextSeq log)

/-- A log produced only by `append_event`, starting from `log`: one append
per `(ts, payload)` entry. -/
def appendAll {π : Type} (log : List (Event π)) : List (String × π) → List (Event π)
  | [] => log
  | e :: rest => appendAll (appendEvent log e.1 e.2).1 rest

/-- `JsonStore.read_events` (json_store.py:600-620): a missing file yields
`([], cursor)`; otherwise one pass that raises `max_cursor` to every seq
seen and collects the rows with `seq > cursor` in file order. -/
def readEvents {π : Type} (file : Option (List (Event π))) (cursor : Int) :
    List (Event π) × Int :=
  match file with
  | none => ([], cursor)
  | some log =>
    log.foldl
      (fun acc e => (if e.seq > cursor then acc.1 ++ [e] else acc.1, max acc.2 e.seq))
      ([], cursor)

/-! ## Runs -/

/-- A patch dict for `update_run`; as for tasks, `none` covers both an
absent key and a Python `None` value, which `update_run` drops
(json_store.py:558). -/
structure RunPatch where
  ended_at : Option String := none
  exit_code : Option Int := none
  worktree_path : Option String := none
  branch_name : Option String := none
  commit_sha : Option String := none
  metrics : Option (List (String × Json)) := none
deriving Repr

/-- Apply one `update_run` patch (non-None keys overwrite; runs carry no
`updated_at`). -/
def applyRunPatch (r : TaskRun) (p : RunPatch) : TaskRun :=
  { r with
    ended_at := (p.ended_at.map some).getD r.ended_at
    exit_code := (p.exit_code.map some).getD r.exit_code
    worktree_path := p.worktree_path.getD r.worktree_path
    branch_name := p.branch_name.getD r.branch_name
    commit_sha := p.commit_sha.getD r.commit_sha
    metrics := p.metrics.getD r.metrics }

/-- `JsonStore.update_run` (json_store.py:552-564): patch the first run
whose id matches and write back; `none` when no run matches. -/
def updateRun (runs : List TaskRun) (runId : String) (p : RunPatch) :
    Option TaskRun × List TaskRun :=
  match runs with
  | [] => (none, [])
  | r :: rest =>
    if r.id == runId then
      let r' := applyRunPatch r p
      (some r', r' :: rest)
    else
      let res := updateRun rest runId p
      (res.1, r :: res.2)

/-- Modelled from the spec: `JsonStore.get_run(run_id) → run?` — the store
operation listed alongside `create_run`, `update_run` and `list_runs`
(§4.1) and called by `TaskRunner._cleanup_exec_worktree_for_run`
(runner.py:342) and the test suite, but absent from json_store.py; row
lookup by id, like `get_task`/`get_repo`. -/
def getRun (runs : List TaskRun) (runId : String) : Option TaskRun :=
  runs.find? (fun r => r.id == runId)

/-! ## Runner: claude command and session lifecycle (core/runner.py) -/

/-- `TaskRunner._build_claude_cmd` (runner.py:87-112). -/
def buildClaudeCmd (permissionMode : PermissionMode) (prompt sessionId : String)
    (useResume : Bool) : List String :=
  ["claude", "-p", prompt, "--output-format", "stream-json", "--verbose"]
    ++ (if useResume then ["--resume", sessionId] else ["--session-id", sessionId])
    ++ (if permissionMode = PermissionMode.BYPASS then
          ["--permission-mode", "bypassPermissions"]
        else ["--permission-mode", "default"])

/-- `pattern in text` at some suffix: the pattern is a prefix of a suffix of
the text (used for the literal resume-failure regexes). -/
def containsSub (p l : List Char) : Bool :=
  l.tails.any (fun suf => p.isPrefixOf suf)

/-- From a position just after `p₁`, Python's `.*p₂` can match: `p₂` occurs
later with no newline strictly before it (`.` does not match newlines). -/
def findGap (p₂ : List Char) : List Char → Bool
  | [] => p₂.isPrefixOf []
  | c :: rest => p₂.isPrefixOf (c :: rest) || (c ≠ '\n' && findGap p₂ rest)

/-- `re.search` of a `p₁.*p₂` pattern: some suffix starts with `p₁` and is
followed by `p₂` on the same line. -/
def searchTwo (p₁ p₂ l : List Char) : Bool :=
  l.tails.any (fun suf => p₁.isPrefixOf suf && findGap p₂ (suf.drop p₁.length))

/-- Whether the combined output matches one of the six case-insensitive
`_RESUME_FALLBACK_ERROR_PATTERNS` (runner.py:30-37); lowercasing is the
ASCII approximation of `re.IGNORECASE`. -/
def resumeFallbackErrorMatch (text : String) : Bool :=
  let t := text.data.map Char.toLower
  searchTwo "session id ".data "not found".data t ||
  containsSub "failed to resume".data t ||
  containsSub "unable to resume".data t ||
  containsSub "cannot resume".data t ||
  containsSub "invalid session".data t ||
  searchTwo "session ".data "does not exist".data t

/-- `TaskRunner._is_resume_recoverable_error` (runner.py:114-117). -/
def isResumeRecoverableError (text : String) : Bool :=
  if pyStrip text = "" then false else resumeFallbackErrorMatch text

/-- The `(exit_code, collected_text, cancelled)` outcome of one
`_run_claude_cmd` invocation — the subprocess behaviour is external, so
invocation outcomes are oracle parameters of the embedding. -/
structure InvokeResult where
  exit_code : Int
  text : String
  cancelled : Bool
deriving Repr, DecidableEq

/-- The events `_stream_claude` itself appends to the task log (the
`command`/`stream` events of `_run_claude_cmd` live behind the oracle). -/
inductive SessionEvent where
  | session_created (session_id : String)
  | session_resumed (session_id : String)
  | session_resume_failed (session_id error_text : String)
  | session_fallback_created (old_session_id session_id : String)
deriving Repr, DecidableEq

/-- What one `_stream_claude` call did: the commands it invoked in order,
the session events it appended, its returned triple, and the
`claude_session_id` persisted on the task afterwards. -/
structure StreamOutcome where
  cmds : List (List String)
  events : List SessionEvent
  result : InvokeResult
  storedSessionId : Option String
deriving Repr, DecidableEq

/-- `TaskRunner._stream_claude` (runner.py:175-241) together with
`_ensure_task_session_id` (runner.py:69-85), single-threaded: if the task
carries a session id, resume it; otherwise mint `uuid` (persist it, emit
`session_created`) and start fresh.  After a resumed, uncancelled, non-zero
invocation whose text matches a resume-failure pattern: emit
`session_resume_failed` with the first 1000 characters of the text, mint
`fallbackUuid`, persist it, emit `session_fallback_created`, and re-invoke
once with `--session-id` — the fallback result is returned as is.
`r₁`/`r₂` are the oracle outcomes of the first and (potential) second
invocation. -/
def streamClaude (storedSession : Option String) (permissionMode : PermissionMode)
    (prompt uuid fallbackUuid : String) (r₁ r₂ : InvokeResult) : StreamOutcome :=
  let sessionId := storedSession.getD uuid
  let created := storedSession.isNone
  let firstEvent := if created then SessionEvent.session_created sessionId
    else SessionEvent.session_resumed sessionId
  let useResume := !created
  let cmd₁ := buildClaudeCmd permissionMode prompt sessionId useResume
  let shouldFallback := useResume && !r₁.cancelled && r₁.exit_code != 0 &&
    isResumeRecoverableError r₁.text
  if shouldFallback then
    let cmd₂ := buildClaudeCmd permissionMode prompt fallbackUuid false
    { cmds := [cmd₁, cmd₂]
      events := [firstEvent,
        SessionEvent.session_resume_failed sessionId (r₁.text.take 1000),
        SessionEvent.session_fallback_created sessionId fallbackUuid]
      result := r₂
      storedSessionId := some fallbackUuid }
  else
    { cmds := [cmd₁]
      events := [firstEvent]
      result := r₁
      storedSessionId := some sessionId }

/-! ## Runner: worktree cleanup, mark-done (core/runner.py, api/tasks.py) -/

/-- The external git operations the cleanup path shells out to
(git_ops.snapshot_worktree / git_ops.cleanup_worktree). -/
inductive GitCall where
  | snapshot_worktree (worktree artifacts_root task_id run_id : String)
  | cleanup_worktree (repo_id worktree branch : String)
deriving Repr, DecidableEq

/-- The fields of the `worktree_cleanup` / `artifact` events the cleanup
path appends. -/
inductive RunnerEvent where
  | worktree_cleanup (trigger_status : TaskStatus) (result : String)
      (run_id worktree_path branch_name error_message : Option String)
  | artifact (path : String)
deriving Repr, DecidableEq

/-- The store-backed world the handlers and the cleanup path touch.
`events` records appended `(task_id, payload)` log entries in order (seq/ts
stamping is modelled separately by `appendEvent`); `gitCalls` records the
external git invocations in order. -/
structure World where
  repos : List RepoConfig
  tasks : List Task
  runs : List TaskRun
  events : List (String × RunnerEvent)
  gitCalls : List GitCall
deriving Repr

/-- `TaskRunner._cleanup_exec_worktree_for_run` (runner.py:335-428).
`snapshotOk` / `cleanupOk` are the oracle outcomes of the external
`git_ops.snapshot_worktree` / `git_ops.cleanup_worktree` calls (`false`
models the call raising).  Returns the method's boolean and the resulting
world: missing run → `run_not_found`; blank (stripped) worktree path →
`skip_empty_path`; missing repo → `repo_not_found`; otherwise optionally
snapshot into `artifacts_dir/<task_id>/<run_id>` (recording the path under
`metrics.artifact_path` and an `artifact` event; a snapshot failure is
swallowed), then cleanup (on success clear the run's `worktree_path` and
record `success`, on failure record `failed` with the message). -/
def cleanupExecWorktreeForRun (w : World) (artifactsDir : String) (task : Task)
    (runId : String) (triggerStatus : TaskStatus) (snapshotOnFailure : Bool)
    (snapshotOk cleanupOk : Bool) (cleanupErrMsg : String) : Bool × World :=
  match getRun w.runs runId with
  | none =>
    (false, { w with events := w.events ++
      [(task.id, RunnerEvent.worktree_cleanup triggerStatus "run_not_found"
        (some runId) none none none)] })
  | some run =>
    let worktreePath := pyStrip run.worktree_path
    if worktreePath = "" then
      (true, { w with events := w.events ++
        [(task.id, RunnerEvent.worktree_cleanup triggerStatus "skip_empty_path"
          (some runId) none none none)] })
    else
      match getRepo w.repos task.repo_id with
      | none =>
        (false, { w with events := w.events ++
          [(task.id, RunnerEvent.worktree_cleanup triggerStatus "repo_not_found"
            (some runId) (some worktreePath) none none)] })
      | some repo =>
        let w₁ :=
          if snapshotOnFailure then
            if snapshotOk then
              let snapshot := artifactsDir ++ "/" ++ task.id ++ "/" ++ runId
              { w with
                gitCalls := w.gitCalls ++
                  [GitCall.snapshot_worktree worktreePath artifactsDir task.id runId]
                runs := (updateRun w.runs runId
                  { metrics := some [("artifact_path", Json.str snapshot)] }).2
                events := w.events ++ [(task.id, RunnerEvent.artifact snapshot)] }
            else
              { w with gitCalls := w.gitCalls ++
                [GitCall.snapshot_worktree worktreePath artifactsDir task.id runId] }
          else w
        if cleanupOk then
          (true, { w₁ with
            gitCalls := w₁.gitCalls ++
              [GitCall.cleanup_worktree repo.id worktreePath run.branch_name]
            runs := (updateRun w₁.runs runId { worktree_path := some "" }).2
            events := w₁.events ++
              [(task.id, RunnerEvent.worktree_cleanup triggerStatus "success"
                (some runId) (some worktreePath) (some run.branch_name) none)] })
        else
          (false, { w₁ with
            gitCalls := w₁.gitCalls ++
              [GitCall.cleanup_worktree repo.id worktreePath run.branch_name]
            events := w₁.events ++
              [(task.id, RunnerEvent.worktree_cleanup triggerStatus "failed"
                (some runId) (some worktreePath) (some run.branch_name)
                (some (cleanupErrMsg.take 500)))] })

/-- The `finally` block of `TaskRunner._run_exec_fixed` (runner.py:651-660)
(identical in `_run_exec_agentic`, runner.py:718-727): once a worktree was
created, re-read the task and — only when it ended FAILED or CANCELLED —
clean up its exec worktree with `snapshot_on_failure=True`; on any other
status (success → REVIEW) the worktree is left in place. -/
def execFinallyCleanup (w : World) (artifactsDir taskId runId : String)
    (worktreeCreated snapshotOk cleanupOk : Bool) (cleanupErrMsg : String) : World :=
  if worktreeCreated then
    match getTask w.tasks taskId with
    | none => w
    | some taskAfter =>
      if taskAfter.status = TaskStatus.FAILED ∨ taskAfter.status = TaskStatus.CANCELLED then
        (cleanupExecWorktreeForRun w artifactsDir taskAfter runId taskAfter.status true
          snapshotOk cleanupOk cleanupErrMsg).2
      else w
  else w

/-- The `mark_done` HTTP handler, `POST /api/tasks/{id}/done`
(api/tasks.py:83-92): 404 when the task is missing, 400 unless its status
is REVIEW, otherwise patch `status=DONE` and return the patched task.  The
handler takes only the store dependency; its body performs no runner or
cleanup call of any kind. -/
def markDone (w : World) (taskId now : String) : (Nat × Option Task) × World :=
  match getTask w.tasks taskId with
  | none => ((404, none), w)
  | some task =>
    if task.status ≠ TaskStatus.REVIEW then ((400, none), w)
    else
      let res := updateTask w.tasks taskId { status := some TaskStatus.DONE } now
      ((200, res.1), { w with tasks := res.2 })

/-! ## Claim theorems -/

/-- Fixture for C1: the demo repo row. -/
def c1Repo : RepoConfig :=
  { id := "demo", name := "demo", root_path := "/repos/demo", main_branch := "main"
    test_command := "echo skip-tests", github_repo := "owner/demo"
    shared_symlink_paths := [], forbidden_symlink_paths := ["PROGRESS.md"], enabled := true }

/-- Fixture for C1: an EXEC task sitting in REVIEW with a current run. -/
def c1Task : Task :=
  { id := "T1", repo_id := "demo", title := "done-cleanup", prompt := "exec"
    mode := TaskMode.EXEC, status := TaskStatus.REVIEW
    permission_mode := PermissionMode.BYPASS, priority := 0
    created_at := "2026-02-10T00:00:00+00:00", updated_at := "2026-02-10T01:00:00+00:00"
    current_run_id := some "R1", claude_session_id := none, plan_result := none
    plan_answers := [], exec_strategy := none, pr_url := ""
    error_code := "", error_message := "", cancel_requested := false
    worker_id := some "worker-1" }

/-- Fixture for C1: the task's current run, holding a live worktree. -/
def c1Run : TaskRun :=
  { id := "R1", task_id := "T1", worker_id := "worker-1", attempt := 1
    started_at := "2026-02-10T00:10:00+00:00", ended_at := some "2026-02-10T00:50:00+00:00"
    exit_code := some 0, worktree_path := "/worktrees/demo/T1"
    branch_name := "task/T1-done-cleanup", commit_sha := "abc123"
    python_env_used := "none", metrics := [] }

/-- Fixture for C1: the whole store state before the done request. -/
def c1World : World :=
  { repos := [c1Repo], tasks := [c1Task], runs := [c1Run], events := [], gitCalls := [] }

/-- C1 (code divergence at the failing input): at a REVIEW task whose
current run holds a worktree, `POST /api/tasks/{id}/done` returns 200 with
the task transitioned to DONE, but contrary to the claim the handler
performs no cleanup whatsoever — it appends no `worktree_cleanup` event,
makes no git call, and leaves the run's `worktree_path` untouched
(api/tasks.py:83-92 never invokes the runner, though
`TaskRunner.cleanup_exec_worktree_for_task` exists for exactly this and the
done-API tests expect it). -/
theorem C1_mark_done_transitions_without_cleanup :
    (markDone c1World "T1" "2026-02-10T02:00:00+00:00").1.1 = 200 ∧
    ((markDone c1World "T1" "2026-02-10T02:00:00+00:00").1.2.map Task.status
      = some TaskStatus.DONE) ∧
    (markDone c1World "T1" "2026-02-10T02:00:00+00:00").2.events = [] ∧
    (markDone c1World "T1" "2026-02-10T02:00:00+00:00").2.gitCalls = [] ∧
    (markDone c1World "T1" "2026-02-10T02:00:00+00:00").2.runs = [c1Run] ∧
    c1Run.worktree_path = "/worktrees/demo/T1" :=
  ⟨rfl, rfl, rfl, rfl, rfl, rfl⟩

/-- C2 (code divergence at the failing input): with an empty existing-id
set — the first allocation of the day — at 2026-02-10 23:11:11 the
allocator returns the pure timestamp form `260210_231111`, not the
date-sequenced `260210-001` the claim (and test_store.py) demand; the
`YYMMDD-NNN` shape is never produced by `_next_id`. -/
theorem C2_next_id_timestamp_not_sequenced :
    nextId [] [⟨2026, 2, 10, 23, 11, 11⟩] = some "260210_231111" ∧
      "260210_231111" ≠ "260210-001" := by
  refine ⟨rfl, ?_⟩
  decide

/-- The next_seq scan splits off an appended entry. -/
lemma nextSeq_append {π : Type} (log : List (Event π)) (e : Event π) :
    nextSeq (log ++ [e]) = max (nextSeq log) (e.seq + 1) := by
  simp [nextSeq, List.foldl_append]

/-- On a log whose seqs are exactly `1..k`, the next_seq scan yields
`k + 1`. -/
lemma nextSeq_of_seqs {π : Type} (log : List (Event π)) (k : ℕ)
    (h : log.map Event.seq = (List.range' 1 k).map Int.ofNat) :
    nextSeq log = (k : Int) + 1 := by
  induction log using List.reverseRecOn generalizing k with
  | nil =>
    have hk : k = 0 := by
      rcases k with _ | n
      · rfl
      · rw [List.range'_concat] at h
        simp at h
    subst hk
    simp [nextSeq]
  | append_singleton l e ih =>
    rcases k with _ | n
    · simp at h
    · rw [List.range'_concat] at h
      simp only [List.map_append, List.map_cons, List.map_nil] at h
      obtain ⟨h₁, h₂⟩ := List.append_inj' h (by simp)
      have he : e.seq = ((1 + 1 * n : ℕ) : Int) := by simpa using h₂
      rw [nextSeq_append, ih n h₁, he]
      push_cast
      omega

/-- Seqs of an append_event-only log grown from a `1..k` log. -/
lemma appendAll_seqs {π : Type} (entries : List (String × π)) :
    ∀ (log : List (Event π)) (k : ℕ),
      log.map Event.seq = (List.range' 1 k).map Int.ofNat →
      (appendAll log entries).map Event.seq
        = (List.range' 1 (k + entries.length)).map Int.ofNat := by
  induction entries with
  | nil =>
    intro log k h
    simpa [appendAll] using h
  | cons e rest ih =>
    intro log k h
    have hnext := nextSeq_of_seqs log k h
    have hstep : (appendEvent log e.1 e.2).1.map Event.seq
        = (List.range' 1 (k + 1)).map Int.ofNat := by
      rw [List.range'_concat]
      simp only [appendEvent, List.map_append, List.map_cons, List.map_nil, h, hnext]
      simp only [List.append_cancel_left_eq, List.cons.injEq, and_true,
        Int.ofNat_eq_natCast]
      push_cast
      omega
    have := ih (appendEvent log e.1 e.2).1 (k + 1) hstep
    rw [show appendAll log (e :: rest) = appendAll (appendEvent log e.1 e.2).1 rest from rfl]
    rw [this]
    congr 2
    simp
    omega

/-- C5: a per-task event log produced only by `append_event` carries seqs
exactly `1..K` (`K` the number of appends): `append_event` stamps one plus
the maximum seq present (1 on an empty log), so seqs are consecutive
positive integers with no gaps. -/
theorem C5_event_seqs_one_to_K {π : Type} (entries : List (String × π)) :
    (appendAll ([] : List (Event π)) entries).map Event.seq
      = (List.range' 1 entries.length).map Int.ofNat := by
  simpa using appendAll_seqs entries [] 0 (by simp)

/-- The event-collecting component of the read_events fold. -/
lemma readEvents_foldl_fst {π : Type} (cursor : Int) (log : List (Event π)) :
    ∀ (acc : List (Event π)) (m : Int),
      (log.foldl
        (fun a e => (if e.seq > cursor then a.1 ++ [e] else a.1, max a.2 e.seq)) (acc, m)).1
        = acc ++ log.filter (fun e => decide (cursor < e.seq)) := by
  induction log with
  | nil => simp
  | cons e rest ih =>
    intro acc m
    by_cases h : e.seq > cursor
    · simp [h, ih, List.filter_cons]
    · simp [h, ih, List.filter_cons]

/-- The max_cursor component of the read_events fold. -/
lemma readEvents_foldl_snd {π : Type} (cursor : Int) (log : List (Event π)) :
    ∀ (acc : List (Event π)) (m : Int),
      (log.foldl
        (fun a e => (if e.seq > cursor then a.1 ++ [e] else a.1, max a.2 e.seq)) (acc, m)).2
        = (log.map Event.seq).foldl max m := by
  induction log with
  | nil => simp
  | cons e rest ih =>
    intro acc m
    by_cases h : e.seq > cursor <;> simp [h, ih]

/-- Left max-fold dominates its seed. -/
lemma foldl_max_ge_init (l : List Int) : ∀ m : Int, m ≤ l.foldl max m := by
  induction l with
  | nil => simp
  | cons x rest ih =>
    intro m
    exact le_trans (le_max_left m x) (ih (max m x))

/-- Left max-fold dominates every member. -/
lemma foldl_max_ge_mem (l : List Int) : ∀ (m x : Int), x ∈ l → x ≤ l.foldl max m := by
  induction l with
  | nil => simp
  | cons y rest ih =>
    intro m x hx
    rcases List.mem_cons.mp hx with rfl | hx
    · exact le_trans (le_max_right m x) (foldl_max_ge_init rest (max m x))
    · exact ih (max m y) x hx

/-- Left max-fold yields its seed or some member. -/
lemma foldl_max_mem (l : List Int) : ∀ m : Int, l.foldl max m = m ∨ l.foldl max m ∈ l := by
  induction l with
  | nil => simp
  | cons y rest ih
  => intro m
     rcases ih (max m y) with h | h
     · rcases le_total m y with hmy | hmy
       · right
         rw [List.foldl_cons, h, max_eq_right hmy]
         exact List.mem_cons_self y rest
       · left
         rw [List.foldl_cons, h, max_eq_left hmy]
     · right
       exact List.mem_cons_of_mem y h

/-- C6: `read_events` returns exactly the logged events with `seq >
cursor`, in file order, and a next_cursor that is the maximum of the cursor
and every seq in the file (so seqs ≤ cursor still advance it); a missing
log file yields the empty batch with the cursor unchanged. -/
theorem C6_read_events_spec {π : Type} (log : List (Event π)) (cursor : Int) :
    (readEvents (some log) cursor).1 = log.filter (fun e => decide (cursor < e.seq)) ∧
    cursor ≤ (readEvents (some log) cursor).2 ∧
    (∀ e ∈ log, e.seq ≤ (readEvents (some log) cursor).2) ∧
    ((readEvents (some log) cursor).2 = cursor ∨
      (readEvents (some log) cursor).2 ∈ log.map Event.seq) ∧
    readEvents (none : Option (List (Event π))) cursor = ([], cursor) := by
  refine ⟨?_, ?_, ?_, ?_, rfl⟩
  · simpa [readEvents] using readEvents_foldl_fst cursor log [] cursor
  · rw [show (readEvents (some log) cursor).2
        = (log.map Event.seq).foldl max cursor from readEvents_foldl_snd cursor log [] cursor]
    exact foldl_max_ge_init _ _
  · intro e he
    rw [show (readEvents (some log) cursor).2
        = (log.map Event.seq).foldl max cursor from readEvents_foldl_snd cursor log [] cursor]
    exact foldl_max_ge_mem _ _ _ (List.mem_map_of_mem Event.seq he)
  · rw [show (readEvents (some log) cursor).2
        = (log.map Event.seq).foldl max cursor from readEvents_foldl_snd cursor log [] cursor]
    exact foldl_max_mem _ _

/-- Fixture for the C6 witness: a three-line log with seqs 1, 2, 3. -/
def c6Log : List (Event String) :=
  [⟨1, "t1", "a"⟩, ⟨2, "t2", "b"⟩, ⟨3, "t3", "c"⟩]

/-- C6 witness: the specification instantiated on a concrete log at
cursor 2. -/
theorem C6_read_events_spec_witness :
    (readEvents (some c6Log) 2).1 = c6Log.filter (fun e => decide ((2 : Int) < e.seq)) ∧
    (2 : Int) ≤ (readEvents (some c6Log) 2).2 ∧
    (∀ e ∈ c6Log, e.seq ≤ (readEvents (some c6Log) 2).2) ∧
    ((readEvents (some c6Log) 2).2 = 2 ∨
      (readEvents (some c6Log) 2).2 ∈ c6Log.map Event.seq) ∧
    readEvents (none : Option (List (Event String))) 2 = ([], 2) :=
  C6_read_events_spec c6Log 2

/-- update_task patches exactly the first row found by get_task. -/
lemma updateTask_eq_of_getTask (rows : List Task) (taskId : String) (p : TaskPatch)
    (now : String) (t : Task) (h : getTask rows taskId = some t) :
    (updateTask rows taskId p now).1 = some (applyTaskPatch t p now) := by
  induction rows with
  | nil => simp [getTask] at h
  | cons r rest ih =>
    unfold getTask at h
    by_cases hr : (r.id == taskId) = true
    · rw [@List.find?_cons_of_pos _ (fun x => x.id == taskId) r rest hr] at h
      injection h with h
      subst h
      simp [updateTask, hr]
    · rw [@List.find?_cons_of_neg _ (fun x => x.id == taskId) r rest hr] at h
      simp [updateTask, hr, ih (by simpa [getTask] using h)]

/-- C8: for an existing task, `cancel_task` transitions straight to
CANCELLED (with the sticky flag) when the status is TODO, READY or
PLAN_REVIEW, and otherwise only sets `cancel_requested=true` leaving the
status unchanged; and a task with `cancel_requested=true` is never the task
returned by `claim_next_task`. -/
theorem C8_cancel_task_spec (rows : List Task) (taskId now : String) (t : Task)
    (h : getTask rows taskId = some t) :
    (∃ t', (cancelTask rows taskId now).1 = some t' ∧
      t'.cancel_requested = true ∧
      ((t.status = TaskStatus.TODO ∨ t.status = TaskStatus.READY ∨
          t.status = TaskStatus.PLAN_REVIEW) → t'.status = TaskStatus.CANCELLED) ∧
      (¬(t.status = TaskStatus.TODO ∨ t.status = TaskStatus.READY ∨
          t.status = TaskStatus.PLAN_REVIEW) → t'.status = t.status)) ∧
    ∀ (rows₂ : List Task) (wid n : String) (u : Task),
      (claimNextTask rows₂ wid n).1 = some u → u.cancel_requested = false := by
  constructor
  · by_cases hstat : t.status = TaskStatus.TODO ∨ t.status = TaskStatus.READY ∨
        t.status = TaskStatus.PLAN_REVIEW
    · refine ⟨applyTaskPatch t
        { status := some TaskStatus.CANCELLED, cancel_requested := some true } now, ?_, ?_, ?_, ?_⟩
      · simp only [cancelTask, h, hstat, if_pos]
        exact updateTask_eq_of_getTask rows taskId _ now t h
      · simp [applyTaskPatch]
      · intro _
        simp [applyTaskPatch]
      · intro hn
        exact absurd hstat hn
    · refine ⟨applyTaskPatch t { cancel_requested := some true } now, ?_, ?_, ?_, ?_⟩
      · simp only [cancelTask, h, hstat, if_neg, not_false_iff]
        exact updateTask_eq_of_getTask rows taskId _ now t h
      · simp [applyTaskPatch]
      · intro hs
        exact absurd hs hstat
      · intro _
        simp [applyTaskPatch]
  · intro rows₂ wid n u hu
    rcases hh : ((rows₂.enum.filter fun p => isClaimCandidate p.2).insertionSort
        fun p q => claimKeyLe p.2 q.2 = true).head? with _ | ⟨i, r⟩
    · simp [claimNextTask, hh] at hu
    · simp only [claimNextTask, hh] at hu
      injection hu with hu
      have hmem : (i, r) ∈ (rows₂.enum.filter fun p => isClaimCandidate p.2).insertionSort
          (fun p q => claimKeyLe p.2 q.2 = true) :=
        List.mem_of_mem_head? (Option.mem_def.mpr hh)
      have hcand : ((i, r) : ℕ × Task) ∈ rows₂.enum.filter (fun p => isClaimCandidate p.2) :=
        (List.perm_insertionSort _ _).subset hmem
      have hc : isClaimCandidate r = true := (List.mem_filter.mp hcand).2
      have hcr : r.cancel_requested = false := by
        simp only [isClaimCandidate, Bool.and_eq_true, Bool.not_eq_true'] at hc
        exact hc.1
      rw [← hu]
      simpa [claimUpdate] using hcr

/-- Fixture for the C8 witness: a TODO-status EXEC task. -/
def c8Task : Task :=
  { id := "T8", repo_id := "demo", title := "t8", prompt := "p8"
    mode := TaskMode.EXEC, status := TaskStatus.TODO
    permission_mode := PermissionMode.BYPASS, priority := 0
    created_at := "2026-02-10T00:00:00+00:00", updated_at := "2026-02-10T00:00:00+00:00"
    current_run_id := none, claude_session_id := none, plan_result := none
    plan_answers := [], exec_strategy := none, pr_url := ""
    error_code := "", error_message := "", cancel_requested := false, worker_id := none }

/-- C8 witness: the cancel specification instantiated on a concrete TODO
task. -/
theorem C8_cancel_task_spec_witness :
    (∃ t', (cancelTask [c8Task] "T8" "2026-02-10T00:05:00+00:00").1 = some t' ∧
      t'.cancel_requested = true ∧
      ((c8Task.status = TaskStatus.TODO ∨ c8Task.status = TaskStatus.READY ∨
          c8Task.status = TaskStatus.PLAN_REVIEW) → t'.status = TaskStatus.CANCELLED) ∧
      (¬(c8Task.status = TaskStatus.TODO ∨ c8Task.status = TaskStatus.READY ∨
          c8Task.status = TaskStatus.PLAN_REVIEW) → t'.status = c8Task.status)) ∧
    ∀ (rows₂ : List Task) (wid n : String) (u : Task),
      (claimNextTask rows₂ wid n).1 = some u → u.cancel_requested = false :=
  C8_cancel_task_spec [c8Task] "T8" "2026-02-10T00:05:00+00:00" c8Task rfl

/-- Fixture for C10: a FAILED task carrying a run reference, a session and
errors, about to be retried. -/
def c10Task : Task :=
  { id := "T10", repo_id := "demo", title := "t10", prompt := "p10"
    mode := TaskMode.EXEC, status := TaskStatus.FAILED
    permission_mode := PermissionMode.BYPASS, priority := 2
    created_at := "2026-02-10T00:00:00+00:00", updated_at := "2026-02-10T01:00:00+00:00"
    current_run_id := some "R1", claude_session_id := some "S1", plan_result := none
    plan_answers := [], exec_strategy := none, pr_url := ""
    error_code := "EXEC_EXIT_NONZERO", error_message := "Claude exited with code 1"
    cancel_requested := true, worker_id := some "worker-1" }

/-- C10 (counterexample): `reset_task_for_retry` does not leave "every
other field unchanged" — `update_task` refreshes `updated_at` to the
current time, so a retry at a later instant changes it. -/
theorem C10_retry_changes_updated_at :
    ((resetTaskForRetry [c10Task] "T10" none "2026-02-11T09:00:00+00:00").1.map
        Task.updated_at) = some "2026-02-11T09:00:00+00:00" ∧
    c10Task.updated_at = "2026-02-10T01:00:00+00:00" ∧
    ("2026-02-11T09:00:00+00:00" : String) ≠ "2026-02-10T01:00:00+00:00" := by
  refine ⟨rfl, rfl, ?_⟩
  decide

/-- C10 (amended): `reset_task_for_retry` on an existing task sets
status=TODO, mode to the requested mode (or keeps the current one), clears
`error_code`, `error_message` and `cancel_requested`, refreshes
`updated_at` to the current time, and leaves every remaining field
unchanged — in particular `current_run_id` survives, because the patch's
null-valued `current_run_id` key is dropped by `update_task`. -/
theorem C10_retry_frame (rows : List Task) (taskId now : String)
    (resetMode : Option TaskMode) (t : Task) (h : getTask rows taskId = some t) :
    ∃ t', (resetTaskForRetry rows taskId resetMode now).1 = some t' ∧
      t'.status = TaskStatus.TODO ∧
      t'.mode = resetMode.getD t.mode ∧
      t'.error_code = "" ∧ t'.error_message = "" ∧ t'.cancel_requested = false ∧
      t'.updated_at = now ∧
      t'.current_run_id = t.current_run_id ∧
      t'.claude_session_id = t.claude_session_id ∧
      t'.plan_result = t.plan_result ∧
      t'.id = t.id ∧ t'.repo_id = t.repo_id ∧ t'.title = t.title ∧
      t'.prompt = t.prompt ∧ t'.permission_mode = t.permission_mode ∧
      t'.priority = t.priority ∧ t'.created_at = t.created_at ∧
      t'.plan_answers = t.plan_answers ∧ t'.exec_strategy = t.exec_strategy ∧
      t'.pr_url = t.pr_url ∧ t'.worker_id = t.worker_id := by
  simp only [resetTaskForRetry, h]
  rw [updateTask_eq_of_getTask rows taskId _ now t h]
  exact ⟨_, rfl, by cases resetMode <;> simp [applyTaskPatch]⟩

/-- C10 witness: the amended retry frame instantiated on the concrete
FAILED task with a requested PLAN reset mode. -/
theorem C10_retry_frame_witness :
    ∃ t', (resetTaskForRetry [c10Task] "T10" (some TaskMode.PLAN)
        "2026-02-11T09:00:00+00:00").1 = some t' ∧
      t'.status = TaskStatus.TODO ∧
      t'.mode = (some TaskMode.PLAN).getD c10Task.mode ∧
      t'.error_code = "" ∧ t'.error_message = "" ∧ t'.cancel_requested = false ∧
      t'.updated_at = "2026-02-11T09:00:00+00:00" ∧
      t'.current_run_id = c10Task.current_run_id ∧
      t'.claude_session_id = c10Task.claude_session_id ∧
      t'.plan_result = c10Task.plan_result ∧
      t'.id = c10Task.id ∧ t'.repo_id = c10Task.repo_id ∧ t'.title = c10Task.title ∧
      t'.prompt = c10Task.prompt ∧ t'.permission_mode = c10Task.permission_mode ∧
      t'.priority = c10Task.priority ∧ t'.created_at = c10Task.created_at ∧
      t'.plan_answers = c10Task.plan_answers ∧ t'.exec_strategy = c10Task.exec_strategy ∧
      t'.pr_url = c10Task.pr_url ∧ t'.worker_id = c10Task.worker_id :=
  C10_retry_frame [c10Task] "T10" "2026-02-11T09:00:00+00:00" (some TaskMode.PLAN) c10Task rfl

/-- The claim ordering is reflexive. -/
lemma claimKeyLe_refl (a : Task) : claimKeyLe a a = true := by
  simp [claimKeyLe]

/-- The claim ordering is total. -/
lemma claimKeyLe_total (a b : Task) : claimKeyLe a b = true ∨ claimKeyLe b a = true := by
  simp only [claimKeyLe, Bool.or_eq_true, Bool.and_eq_true, decide_eq_true_eq, beq_iff_eq]
  rcases lt_trichotomy (-a.priority) (-b.priority) with h | h | h
  · exact Or.inl (Or.inl h)
  · rcases le_total a.created_at b.created_at with hc | hc
    · exact Or.inl (Or.inr ⟨h, hc⟩)
    · exact Or.inr (Or.inr ⟨h.symm, hc⟩)
  · exact Or.inr (Or.inl h)

/-- The claim ordering is transitive. -/
lemma claimKeyLe_trans (a b c : Task) (hab : claimKeyLe a b = true)
    (hbc : claimKeyLe b c = true) : claimKeyLe a c = true := by
  simp only [claimKeyLe, Bool.or_eq_true, Bool.and_eq_true, decide_eq_true_eq,
    beq_iff_eq] at hab hbc ⊢
  rcases hab with h₁ | ⟨h₁, h₁'⟩ <;> rcases hbc with h₂ | ⟨h₂, h₂'⟩
  · exact Or.inl (h₁.trans h₂)
  · exact Or.inl (h₂ ▸ h₁)
  · exact Or.inl (lt_of_le_of_lt (le_of_eq h₁) h₂)
  · exact Or.inr ⟨h₁.trans h₂, le_trans h₁' h₂'⟩

/-- C4: `claim_next_task` considers exactly the non-cancel-requested tasks
with (PLAN ∧ TODO) or (EXEC ∧ TODO/READY); with no candidate it returns
none leaving every task unchanged; otherwise it returns some claimed task
that is a candidate, minimal for (priority desc, created_at asc), is
transitioned PLAN→PLAN_RUNNING / EXEC→RUNNING with the worker recorded, and
is written back in place with all other rows untouched. -/
theorem C4_claim_next_task_spec (rows : List Task) (wid now : String) :
    ((∀ r ∈ rows, isClaimCandidate r = false) →
      claimNextTask rows wid now = (none, rows)) ∧
    ((∃ r ∈ rows, isClaimCandidate r = true) →
      ∃ i : Fin rows.length,
        isClaimCandidate (rows.get i) = true ∧
        (∀ r' ∈ rows, isClaimCandidate r' = true → claimKeyLe (rows.get i) r' = true) ∧
        claimNextTask rows wid now =
          (some (claimUpdate (rows.get i) wid now),
            rows.set i.1 (claimUpdate (rows.get i) wid now)) ∧
        (claimUpdate (rows.get i) wid now).status =
          (if (rows.get i).mode = TaskMode.PLAN then TaskStatus.PLAN_RUNNING
            else TaskStatus.RUNNING) ∧
        (claimUpdate (rows.get i) wid now).worker_id = some wid ∧
        (claimUpdate (rows.get i) wid now).updated_at = now ∧
        (claimUpdate (rows.get i) wid now).id = (rows.get i).id ∧
        (claimUpdate (rows.get i) wid now).mode = (rows.get i).mode ∧
        (claimUpdate (rows.get i) wid now).priority = (rows.get i).priority ∧
        (claimUpdate (rows.get i) wid now).created_at = (rows.get i).created_at ∧
        (claimUpdate (rows.get i) wid now).cancel_requested =
          (rows.get i).cancel_requested) := by
  haveI instTot : IsTotal (ℕ × Task) (fun p q => claimKeyLe p.2 q.2 = true) :=
    ⟨fun p q => claimKeyLe_total p.2 q.2⟩
  haveI instTrans : IsTrans (ℕ × Task) (fun p q => claimKeyLe p.2 q.2 = true) :=
    ⟨fun p q s => claimKeyLe_trans p.2 q.2 s.2⟩
  constructor
  · intro hall
    have hfil : rows.enum.filter (fun p => isClaimCandidate p.2) = [] := by
      rw [List.filter_eq_nil_iff]
      rintro ⟨j, x⟩ hx
      obtain ⟨hlt, he⟩ := List.getElem?_eq_some.mp (List.mem_enum_iff_getElem?.mp hx)
      have hxmem : x ∈ rows := by
        have hm := List.getElem_mem hlt
        rw [he] at hm
        simpa using hm
      simp [hall x hxmem]
    simp [claimNextTask, hfil]
  · rintro ⟨r₀, hr₀mem, hr₀c⟩
    obtain ⟨n₀, hn₀⟩ := List.mem_iff_get.mp hr₀mem
    have hmem₀ : ((n₀.1, r₀) : ℕ × Task) ∈ rows.enum := by
      rw [List.mem_enum_iff_getElem?]
      have : rows[n₀.1]? = some (rows.get n₀) := by
        rw [List.get_eq_getElem]
        exact List.getElem?_eq_getElem n₀.2
      rw [this, hn₀]
    have hcand₀ : ((n₀.1, r₀) : ℕ × Task) ∈ rows.enum.filter (fun p => isClaimCandidate p.2) :=
      List.mem_filter.mpr ⟨hmem₀, hr₀c⟩
    have hperm : ((rows.enum.filter (fun p => isClaimCandidate p.2)).insertionSort
          (fun p q => claimKeyLe p.2 q.2 = true)).Perm
        (rows.enum.filter (fun p => isClaimCandidate p.2)) :=
      List.perm_insertionSort _ _
    obtain ⟨⟨i, r⟩, tl, hcons⟩ :
        ∃ hd tl, (rows.enum.filter (fun p => isClaimCandidate p.2)).insertionSort
          (fun p q => claimKeyLe p.2 q.2 = true) = hd :: tl := by
      cases hs : (rows.enum.filter (fun p => isClaimCandidate p.2)).insertionSort
          (fun p q => claimKeyLe p.2 q.2 = true) with
      | nil =>
        rw [hs] at hperm
        rw [hperm.symm.eq_nil] at hcand₀
        exact absurd hcand₀ (List.not_mem_nil _)
      | cons hd tl => exact ⟨hd, tl, rfl⟩
    have hmem : ((i, r) : ℕ × Task) ∈ (rows.enum.filter
        (fun p => isClaimCandidate p.2)).insertionSort
        (fun p q => claimKeyLe p.2 q.2 = true) := by
      rw [hcons]
      exact List.mem_cons_self _ _
    obtain ⟨hienum, hic⟩ := List.mem_filter.mp (hperm.subset hmem)
    obtain ⟨hilt, hie⟩ := List.getElem?_eq_some.mp (List.mem_enum_iff_getElem?.mp hienum)
    have hget : rows.get ⟨i, hilt⟩ = r := by
      rw [List.get_eq_getElem]
      exact hie
    refine ⟨⟨i, hilt⟩, ?_, ?_, ?_, ?_, ?_, ?_, ?_, ?_, ?_, ?_, ?_⟩
    · rw [hget]
      exact hic
    · intro r' hr' hc'
      obtain ⟨n', hn'⟩ := List.mem_iff_get.mp hr'
      have hmem' : ((n'.1, r') : ℕ × Task) ∈ rows.enum := by
        rw [List.mem_enum_iff_getElem?]
        have : rows[n'.1]? = some (rows.get n') := by
          rw [List.get_eq_getElem]
          exact List.getElem?_eq_getElem n'.2
        rw [this, hn']
      have hsortmem : ((n'.1, r') : ℕ × Task) ∈ (rows.enum.filter
          (fun p => isClaimCandidate p.2)).insertionSort
          (fun p q => claimKeyLe p.2 q.2 = true) :=
        hperm.symm.subset (List.mem_filter.mpr ⟨hmem', hc'⟩)
      rw [hcons] at hsortmem
      rcases List.mem_cons.mp hsortmem with heq | htl
      · have hrr : r' = r := congrArg Prod.snd heq
        rw [hget, hrr]
        exact claimKeyLe_refl r
      · have hsortedS := List.sorted_insertionSort
          (fun (p q : ℕ × Task) => claimKeyLe p.2 q.2 = true)
          (rows.enum.filter (fun p => isClaimCandidate p.2))
        rw [hcons] at hsortedS
        have := (List.sorted_cons.mp hsortedS).1 _ htl
        rw [hget]
        exact this
    · have hhead : ((rows.enum.filter (fun p => isClaimCandidate p.2)).insertionSort
          (fun p q => claimKeyLe p.2 q.2 = true)).head? = some (i, r) := by
        rw [hcons]
        rfl
      rw [hget]
      simp only [claimNextTask, hhead]
    · rw [hget]
      cases hm : r.mode <;> simp [claimUpdate, hm]
    · simp [claimUpdate]
    · simp [claimUpdate]
    · simp [claimUpdate]
    · simp [claimUpdate]
    · simp [claimUpdate]
    · simp [claimUpdate]
    · simp [claimUpdate]

/-- Fixture for the C4 witness: a low-priority TODO EXEC task. -/
def c4Low : Task :=
  { c8Task with
    id := "T4a"
    title := "low"
    priority := 0
    created_at := "2026-02-09T00:00:00+00:00" }

/-- Fixture for the C4 witness: a high-priority TODO EXEC task created
later. -/
def c4High : Task :=
  { c8Task with
    id := "T4b"
    title := "high"
    priority := 5
    created_at := "2026-02-10T00:00:00+00:00" }

/-- C4 witness: the claim specification instantiated on a concrete
two-task collection with a claimable task present. -/
theorem C4_claim_next_task_spec_witness :
    ∃ i : Fin ([c4Low, c4High].length),
      isClaimCandidate ([c4Low, c4High].get i) = true ∧
      (∀ r' ∈ [c4Low, c4High], isClaimCandidate r' = true →
        claimKeyLe ([c4Low, c4High].get i) r' = true) ∧
      claimNextTask [c4Low, c4High] "worker-1" "2026-02-10T12:00:00+00:00" =
        (some (claimUpdate ([c4Low, c4High].get i) "worker-1" "2026-02-10T12:00:00+00:00"),
          [c4Low, c4High].set i.1
            (claimUpdate ([c4Low, c4High].get i) "worker-1" "2026-02-10T12:00:00+00:00")) ∧
      (claimUpdate ([c4Low, c4High].get i) "worker-1" "2026-02-10T12:00:00+00:00").status =
        (if ([c4Low, c4High].get i).mode = TaskMode.PLAN then TaskStatus.PLAN_RUNNING
          else TaskStatus.RUNNING) ∧
      (claimUpdate ([c4Low, c4High].get i) "worker-1"
        "2026-02-10T12:00:00+00:00").worker_id = some "worker-1" ∧
      (claimUpdate ([c4Low, c4High].get i) "worker-1"
        "2026-02-10T12:00:00+00:00").updated_at = "2026-02-10T12:00:00+00:00" ∧
      (claimUpdate ([c4Low, c4High].get i) "worker-1"
        "2026-02-10T12:00:00+00:00").id = ([c4Low, c4High].get i).id ∧
      (claimUpdate ([c4Low, c4High].get i) "worker-1"
        "2026-02-10T12:00:00+00:00").mode = ([c4Low, c4High].get i).mode ∧
      (claimUpdate ([c4Low, c4High].get i) "worker-1"
        "2026-02-10T12:00:00+00:00").priority = ([c4Low, c4High].get i).priority ∧
      (claimUpdate ([c4Low, c4High].get i) "worker-1"
        "2026-02-10T12:00:00+00:00").created_at = ([c4Low, c4High].get i).created_at ∧
      (claimUpdate ([c4Low, c4High].get i) "worker-1"
        "2026-02-10T12:00:00+00:00").cancel_requested =
        ([c4Low, c4High].get i).cancel_requested :=
  (C4_claim_next_task_spec [c4Low, c4High] "worker-1" "2026-02-10T12:00:00+00:00").2
    ⟨c4High, List.mem_cons_of_mem c4Low (List.mem_cons_self c4High []), rfl⟩

/-- C7: the session fallback fires exactly when the invocation used
`--resume` (a session id was stored), was not cancelled, exited non-zero,
and its captured text matches a resume-failure pattern — in that case the
runner emits `session_resume_failed` carrying the first 1000 characters of
the text, mints and persists the fallback UUID, emits
`session_fallback_created`, and re-invokes exactly once with
`--session-id`, returning the second result; in every other case a single
invocation runs, its result is returned, and the session id is left as
established on entry. -/
theorem C7_resume_fallback_iff (storedSession : Option String) (pm : PermissionMode)
    (prompt uuid fuuid : String) (r₁ r₂ : InvokeResult) :
    (∀ sid, storedSession = some sid →
      r₁.cancelled = false → r₁.exit_code ≠ 0 → isResumeRecoverableError r₁.text = true →
      streamClaude storedSession pm prompt uuid fuuid r₁ r₂ =
        { cmds := [buildClaudeCmd pm prompt sid true, buildClaudeCmd pm prompt fuuid false]
          events := [SessionEvent.session_resumed sid,
            SessionEvent.session_resume_failed sid (r₁.text.take 1000),
            SessionEvent.session_fallback_created sid fuuid]
          result := r₂
          storedSessionId := some fuuid }) ∧
    (¬(storedSession.isSome = true ∧ r₁.cancelled = false ∧ r₁.exit_code ≠ 0 ∧
        isResumeRecoverableError r₁.text = true) →
      (streamClaude storedSession pm prompt uuid fuuid r₁ r₂).cmds
        = [buildClaudeCmd pm prompt (storedSession.getD uuid) storedSession.isSome] ∧
      (streamClaude storedSession pm prompt uuid fuuid r₁ r₂).result = r₁ ∧
      (streamClaude storedSession pm prompt uuid fuuid r₁ r₂).storedSessionId
        = some (storedSession.getD uuid) ∧
      (streamClaude storedSession pm prompt uuid fuuid r₁ r₂).events
        = [match storedSession with
           | some sid => SessionEvent.session_resumed sid
           | none => SessionEvent.session_created uuid]) := by
  constructor
  · rintro sid rfl hc he hm
    simp [streamClaude, hc, hm, bne_iff_ne, he]
  · intro hn
    rcases storedSession with _ | sid
    · simp [streamClaude]
    · by_cases hc : r₁.cancelled = true
      · simp [streamClaude, hc]
      · simp only [Bool.not_eq_true] at hc
        by_cases hm : isResumeRecoverableError r₁.text = true
        · by_cases he : r₁.exit_code = 0
          · simp [streamClaude, hc, hm, he]
          · exact absurd ⟨rfl, hc, he, hm⟩ hn
        · simp only [Bool.not_eq_true] at hm
          simp [streamClaude, hc, hm]

/-- C7 witness: at a stored session whose resume dies with "Session ID …
not found", the fallback path is taken with the concrete fallback UUID. -/
theorem C7_resume_fallback_iff_witness :
    streamClaude (some "b-session") PermissionMode.BYPASS "hello" "uuid-1" "uuid-2"
        ⟨1, "Error: Session ID b-session not found.", false⟩ ⟨0, "ok", false⟩ =
      { cmds := [buildClaudeCmd PermissionMode.BYPASS "hello" "b-session" true,
          buildClaudeCmd PermissionMode.BYPASS "hello" "uuid-2" false]
        events := [SessionEvent.session_resumed "b-session",
          SessionEvent.session_resume_failed "b-session"
            (String.take "Error: Session ID b-session not found." 1000),
          SessionEvent.session_fallback_created "b-session" "uuid-2"]
        result := ⟨0, "ok", false⟩
        storedSessionId := some "uuid-2" } :=
  (C7_resume_fallback_iff (some "b-session") PermissionMode.BYPASS "hello" "uuid-1" "uuid-2"
      ⟨1, "Error: Session ID b-session not found.", false⟩ ⟨0, "ok", false⟩).1
    "b-session" rfl rfl (by decide) (by decide)

/-- update_run patches exactly the first run found by get_run, and the
patched run is what get_run sees afterwards. -/
lemma updateRun_eq_of_getRun (runs : List TaskRun) (runId : String) (p : RunPatch)
    (run : TaskRun) (h : getRun runs runId = some run) :
    (updateRun runs runId p).1 = some (applyRunPatch run p) ∧
    getRun (updateRun runs runId p).2 runId = some (applyRunPatch run p) := by
  induction runs with
  | nil => simp [getRun] at h
  | cons r rest ih =>
    unfold getRun at h
    by_cases hr : (r.id == runId) = true
    · rw [@List.find?_cons_of_pos _ (fun x => x.id == runId) r rest hr] at h
      injection h with h
      subst h
      refine ⟨by simp [updateRun, hr], ?_⟩
      have hsnd : (updateRun (r :: rest) runId p).2 = applyRunPatch r p :: rest := by
        simp [updateRun, hr]
      rw [hsnd]
      unfold getRun
      rw [@List.find?_cons_of_pos _ (fun x => x.id == runId) (applyRunPatch r p) rest hr]
    · rw [@List.find?_cons_of_neg _ (fun x => x.id == runId) r rest hr] at h
      obtain ⟨ih₁, ih₂⟩ := ih (by simpa [getRun] using h)
      refine ⟨by simp [updateRun, hr, ih₁], ?_⟩
      have hsnd : (updateRun (r :: rest) runId p).2 = r :: (updateRun rest runId p).2 := by
        simp [updateRun, hr]
      rw [hsnd]
      unfold getRun
      rw [@List.find?_cons_of_neg _ (fun x => x.id == runId) r _ hr]
      simpa [getRun] using ih₂

/-- C3: after an EXEC run ends FAILED or CANCELLED, the runner's finally
block — looking the run up through the store's `get_run` — snapshots the
worktree into `artifacts/<task_id>/<run_id>` (recording the path in the
run's metrics and an `artifact` event), then cleans up the worktree and
branch and clears `worktree_path` on the run; when the task ended in any
other status (success → REVIEW) nothing is touched and the worktree is
kept. -/
theorem C3_failed_exec_cleanup (w : World) (artifactsDir taskId runId msg : String)
    (t : Task) (run : TaskRun) (repo : RepoConfig)
    (ht : getTask w.tasks taskId = some t)
    (hst : t.status = TaskStatus.FAILED ∨ t.status = TaskStatus.CANCELLED)
    (hr : getRun w.runs runId = some run)
    (hwp : ¬ pyStrip run.worktree_path = "")
    (hrepo : getRepo w.repos t.repo_id = some repo) :
    (execFinallyCleanup w artifactsDir taskId runId true true true msg).gitCalls
      = w.gitCalls ++
        [GitCall.snapshot_worktree (pyStrip run.worktree_path) artifactsDir t.id runId,
         GitCall.cleanup_worktree repo.id (pyStrip run.worktree_path) run.branch_name] ∧
    (execFinallyCleanup w artifactsDir taskId runId true true true msg).events
      = w.events ++
        [(t.id, RunnerEvent.artifact (artifactsDir ++ "/" ++ t.id ++ "/" ++ runId)),
         (t.id, RunnerEvent.worktree_cleanup t.status "success" (some runId)
           (some (pyStrip run.worktree_path)) (some run.branch_name) none)] ∧
    (∃ run', getRun (execFinallyCleanup w artifactsDir taskId runId true true true msg).runs
          runId = some run' ∧
        run'.worktree_path = "" ∧
        objGet run'.metrics "artifact_path"
          = some (Json.str (artifactsDir ++ "/" ++ t.id ++ "/" ++ runId)) ∧
        run'.id = run.id ∧ run'.task_id = run.task_id ∧
        run'.branch_name = run.branch_name) ∧
    (∀ (w₂ : World) (t₂ : Task), getTask w₂.tasks taskId = some t₂ →
      t₂.status ≠ TaskStatus.FAILED → t₂.status ≠ TaskStatus.CANCELLED →
      execFinallyCleanup w₂ artifactsDir taskId runId true true true msg = w₂) := by
  refine ⟨?_, ?_, ?_, ?_⟩
  · simp only [execFinallyCleanup, ht]
    rw [if_pos hst]
    simp only [cleanupExecWorktreeForRun, hr, hrepo]
    rw [if_neg hwp]
    simp
  · simp only [execFinallyCleanup, ht]
    rw [if_pos hst]
    simp only [cleanupExecWorktreeForRun, hr, hrepo]
    rw [if_neg hwp]
    simp
  · simp only [execFinallyCleanup, ht]
    rw [if_pos hst]
    simp only [cleanupExecWorktreeForRun, hr, hrepo]
    rw [if_neg hwp]
    simp only [if_true]
    obtain ⟨-, h₁⟩ := updateRun_eq_of_getRun w.runs runId
      { metrics := some [("artifact_path",
          Json.str (artifactsDir ++ "/" ++ t.id ++ "/" ++ runId))] } run hr
    obtain ⟨-, h₂⟩ := updateRun_eq_of_getRun _ runId { worktree_path := some "" } _ h₁
    refine ⟨_, by simpa using h₂, ?_, ?_, ?_, ?_, ?_⟩ <;> simp [applyRunPatch, objGet]
  · intro w₂ t₂ h₂ hf hc
    have hcond : ¬(t₂.status = TaskStatus.FAILED ∨ t₂.status = TaskStatus.CANCELLED) := by
      rintro (h | h)
      · exact hf h
      · exact hc h
    simp only [execFinallyCleanup, h₂]
    rw [if_neg hcond]
    simp

/-- Fixture for the C3 witness: demo repo. -/
def c3Repo : RepoConfig :=
  { c1Repo with id := "demo3" }

/-- Fixture for the C3 witness: an EXEC task that ended FAILED. -/
def c3Task : Task :=
  { c8Task with
    id := "T3"
    repo_id := "demo3"
    status := TaskStatus.FAILED
    current_run_id := some "R3"
    error_code := "EXEC_EXIT_NONZERO" }

/-- Fixture for the C3 witness: the failed run with a live worktree. -/
def c3Run : TaskRun :=
  { id := "R3", task_id := "T3", worker_id := "worker-1", attempt := 1
    started_at := "2026-02-10T00:10:00+00:00", ended_at := some "2026-02-10T00:50:00+00:00"
    exit_code := some 1, worktree_path := "/worktrees/demo3/T3"
    branch_name := "task/T3-x", commit_sha := "", python_env_used := "none", metrics := [] }

/-- Fixture for the C3 witness: the world after the failed run ended. -/
def c3World : World :=
  { repos := [c3Repo], tasks := [c3Task], runs := [c3Run], events := [], gitCalls := [] }

/-- C3 witness: the cleanup specification instantiated on the concrete
failed run. -/
theorem C3_failed_exec_cleanup_witness :
    (execFinallyCleanup c3World "/state/artifacts" "T3" "R3" true true true "boom").gitCalls
      = c3World.gitCalls ++
        [GitCall.snapshot_worktree (pyStrip c3Run.worktree_path) "/state/artifacts"
           c3Task.id "R3",
         GitCall.cleanup_worktree c3Repo.id (pyStrip c3Run.worktree_path)
           c3Run.branch_name] ∧
    (execFinallyCleanup c3World "/state/artifacts" "T3" "R3" true true true "boom").events
      = c3World.events ++
        [(c3Task.id, RunnerEvent.artifact ("/state/artifacts" ++ "/" ++ c3Task.id ++ "/" ++ "R3")),
         (c3Task.id, RunnerEvent.worktree_cleanup c3Task.status "success" (some "R3")
           (some (pyStrip c3Run.worktree_path)) (some c3Run.branch_name) none)] ∧
    (∃ run', getRun (execFinallyCleanup c3World "/state/artifacts" "T3" "R3"
          true true true "boom").runs "R3" = some run' ∧
        run'.worktree_path = "" ∧
        objGet run'.metrics "artifact_path"
          = some (Json.str ("/state/artifacts" ++ "/" ++ c3Task.id ++ "/" ++ "R3")) ∧
        run'.id = c3Run.id ∧ run'.task_id = c3Run.task_id ∧
        run'.branch_name = c3Run.branch_name) ∧
    (∀ (w₂ : World) (t₂ : Task), getTask w₂.tasks "T3" = some t₂ →
      t₂.status ≠ TaskStatus.FAILED → t₂.status ≠ TaskStatus.CANCELLED →
      execFinallyCleanup w₂ "/state/artifacts" "T3" "R3" true true true "boom" = w₂) :=
  C3_failed_exec_cleanup c3World "/state/artifacts" "T3" "R3" "boom" c3Task c3Run c3Repo
    rfl (Or.inl rfl) rfl (by decide) rfl

/-- The depth scan of the extractor, started at `depth`, first returns to
depth 0 (via a `}`) exactly at the last character of the list. -/
def closesAtEnd : List Char → Int → Bool
  | [], _ => false
  | c :: rest, depth =>
    if c = lbrace then closesAtEnd rest (depth + 1)
    else if c = rbrace then
      if depth - 1 = 0 then rest.isEmpty
      else closesAtEnd rest (depth - 1)
    else closesAtEnd rest depth

/-- On input whose depth profile closes exactly at its end and whose text
loads as a JSON object, the inner scan returns that object without ever
looking at the trailing text. -/
lemma scanEnds_of_closesAtEnd :
    ∀ (u v acc : List Char) (d : Int) (o : List (String × Json)),
      closesAtEnd u d = true →
      loads (acc.reverse ++ u) = some (Json.obj o) →
      scanEnds (u ++ v) d acc = some o := by
  intro u
  induction u with
  | nil =>
    intro v acc d o hbal _
    simp [closesAtEnd] at hbal
  | cons c rest ih =>
    intro v acc d o hbal hload
    by_cases hc : c = lbrace
    · simp only [closesAtEnd, if_pos hc] at hbal
      show scanEnds (c :: (rest ++ v)) d acc = some o
      simp only [scanEnds, if_pos hc]
      exact ih v (c :: acc) (d + 1) o hbal (by simpa using hload)
    · by_cases hr : c = rbrace
      · by_cases hz : d - 1 = 0
        · simp only [closesAtEnd, if_neg hc, if_pos hr, if_pos hz] at hbal
          have hrest : rest = [] := by simpa using hbal
          subst hrest
          show scanEnds (c :: v) d acc = some o
          have hcand : loads ((c :: acc).reverse) = some (Json.obj o) := by
            simpa using hload
          simp only [scanEnds, if_neg hc, if_pos hr, if_pos hz, hcand]
        · simp only [closesAtEnd, if_neg hc, if_pos hr, if_neg hz] at hbal
          show scanEnds (c :: (rest ++ v)) d acc = some o
          simp only [scanEnds, if_neg hc, if_pos hr, if_neg hz]
          exact ih v (c :: acc) (d - 1) o hbal (by simpa using hload)
      · simp only [closesAtEnd, if_neg hc, if_neg hr] at hbal
        show scanEnds (c :: (rest ++ v)) d acc = some o
        simp only [scanEnds, if_neg hc, if_neg hr]
        exact ih v (c :: acc) d o hbal (by simpa using hload)

/-- A leading brace-balanced JSON-object prefix is what the extractor
returns, regardless of trailing text. -/
lemma extractJsonCandidate_of_closes (s v : List Char) (o : List (String × Json))
    (hhead : s.head? = some lbrace)
    (hbal : closesAtEnd s 0 = true)
    (hload : loads s = some (Json.obj o)) :
    extractJsonCandidate (s ++ v) = some o := by
  cases s with
  | nil => simp at hhead
  | cons c rest =>
    have hc : c = lbrace := by simpa using hhead
    have hscan := scanEnds_of_closesAtEnd (c :: rest) v [] 0 o hbal (by simpa using hload)
    show extractJsonCandidate (c :: (rest ++ v)) = some o
    simp only [extractJsonCandidate, if_pos hc]
    rw [show (c :: (rest ++ v)) = ((c :: rest) ++ v) from rfl, hscan]

/-- Erase the `raw_text` field (which parse_plan always sets to the whole
input). -/
def clearRaw (r : PlanResult) : PlanResult := { r with raw_text := "" }

/-- Everything parse_plan builds from an extracted object other than
`raw_text` depends only on the object. -/
lemma parsePlanFromObj_clearRaw (o : List (String × Json)) (raw raw' : String) :
    (parsePlanFromObj o raw).map clearRaw = (parsePlanFromObj o raw').map clearRaw := by
  rcases hq : planQuestionsOf o with _ | qs <;>
    simp [parsePlanFromObj, hq, clearRaw]

/-- A PlanResult built from an extracted object carries valid_json=true. -/
lemma parsePlanFromObj_valid (o : List (String × Json)) (raw : String) (r : PlanResult)
    (h : parsePlanFromObj o raw = some r) : r.valid_json = true := by
  rcases hq : planQuestionsOf o with _ | qs <;>
    rw [parsePlanFromObj, hq] at h
  · simp at h
  · simp only [Option.map_some'] at h
    injection h with h
    rw [← h]

/-- C9 (amended): for any string `s` that is a serialized nonempty JSON
object whose naive brace-depth profile closes exactly at its last character
(in particular any serialization whose strings contain no brace
characters), `parse_plan(s ++ trailing)` picks the same earliest
brace-balanced candidate as `parse_plan(s)` and yields the same result in
every field except `raw_text` (which is always the whole input), with
`valid_json = true` whenever a result is produced. -/
theorem C9_parse_plan_roundtrip_mod_raw (s t : String)
    (hhead : s.data.head? = some lbrace)
    (hbal : closesAtEnd s.data 0 = true)
    (o : List (String × Json))
    (hload : loads s.data = some (Json.obj o))
    (hne : o ≠ []) :
    (parsePlan (s ++ t)).map clearRaw = (parsePlan s).map clearRaw ∧
    (∀ r, parsePlan (s ++ t) = some r → r.valid_json = true) ∧
    (∀ r, parsePlan s = some r → r.valid_json = true) := by
  have hex₁ : extractJsonCandidate (s ++ t).data = some o := by
    rw [String.data_append]
    exact extractJsonCandidate_of_closes s.data t.data o hhead hbal hload
  have hex₂ : extractJsonCandidate s.data = some o := by
    have h := extractJsonCandidate_of_closes s.data [] o hhead hbal hload
    simpa using h
  rcases o with _ | ⟨f, fs⟩
  · exact absurd rfl hne
  · refine ⟨?_, ?_, ?_⟩
    · simp only [parsePlan, hex₁, hex₂]
      exact parsePlanFromObj_clearRaw (f :: fs) (s ++ t) s
    · intro r hr
      simp only [parsePlan, hex₁] at hr
      exact parsePlanFromObj_valid (f :: fs) (s ++ t) r hr
    · intro r hr
      simp only [parsePlan, hex₂] at hr
      exact parsePlanFromObj_valid (f :: fs) s r hr

/-- C9 witness: the amended round-trip instantiated on the serialization of
the object with one `summary` field and a concrete trailing commentary. -/
theorem C9_parse_plan_roundtrip_mod_raw_witness :
    (parsePlan ("\x7b\"summary\": \"s\"\x7d" ++ " and a trailing explanation")).map clearRaw
      = (parsePlan "\x7b\"summary\": \"s\"\x7d").map clearRaw ∧
    (∀ r, parsePlan ("\x7b\"summary\": \"s\"\x7d" ++ " and a trailing explanation") = some r →
      r.valid_json = true) ∧
    (∀ r, parsePlan "\x7b\"summary\": \"s\"\x7d" = some r → r.valid_json = true) :=
  C9_parse_plan_roundtrip_mod_raw "\x7b\"summary\": \"s\"\x7d" " and a trailing explanation"
    (by decide) (by decide) [("summary", Json.str "s")] rfl (by simp)

/-- C9 (counterexample): the claim as stated is false — with trailing text
the parsed plans are *not* equal, because `raw_text` is always the whole
input: `parse_plan(serialize({"summary": "s"}) ++ " tail")` differs from
`parse_plan(serialize({"summary": "s"}))`. -/
theorem C9_roundtrip_counterexample :
    parsePlan ("\x7b\"summary\": \"s\"\x7d" ++ " tail")
      ≠ parsePlan "\x7b\"summary\": \"s\"\x7d" := by
  decide

end RepoPilot
